import Mathlib

/-!
Shallow embedding of `src/includes/Mari/src/comment.js` (the comment-creation
module of the Ovizone repository) and proofs about the claims of its
specification.

Modelling conventions:
* JS strings are Lean `String` (code points instead of UTF-16 units; all
  inputs of interest are within the BMP, where the two coincide).
* Optional / possibly-absent JS fields are `Option`; JS truthiness of a
  string-valued field is `jsTruthyStr` (absent, or the empty string, is falsy).
* Collaborator behaviour (HTTP responses, `isReadableStream`, `getGUID`,
  `Math.random`) is supplied explicitly: per-attachment behaviour lives in the
  `Attachment` record, per-call behaviour in `Env`.
* A call is summarised by a `CallTrace`: the network requests issued, the
  completion-callback invocations, how many of those were synchronous, the
  settled state of the returned promise, and any synchronous exception that
  escaped the call. Callbacks are assumed not to throw.
-/

deriving instance DecidableEq for Except

namespace Mari

/-- JS truthiness of a possibly-absent string value: `undefined`/`null` and
the empty string are falsy. -/
def jsTruthyStr : Option String → Bool
  | none => false
  | some s => s != ""

/-- Payload of an upload response, as inspected by `handleUpload`
(`res.payload.fbid`). -/
structure UploadPayload where
  fbid : Option String
  deriving Repr, DecidableEq

/-- An upload response after `parseAndCheckLogin`: `handleUpload` checks
`res.error || !res.payload || !res.payload.fbid`. -/
structure UploadResp where
  error : Bool
  payload : Option UploadPayload
  deriving Repr, DecidableEq

/-- An attachment value together with the collaborators' behaviour on it:
whether `utils.isReadableStream` accepts it, and the settled outcome of
`postFormData(...).then(parseAndCheckLogin(...))` for it (`Except.error`
models a rejected upload request). -/
structure Attachment where
  readable : Bool
  response : Except String UploadResp
  deriving Repr, DecidableEq

/-- A sticker identifier as supplied by the caller (a JS number or string). -/
inductive StickerVal where
  | num (n : Nat)
  | str (s : String)
  deriving Repr, DecidableEq

/-- JS truthiness of a sticker value (`if (msg.sticker)`): `0` and `""` are
falsy. -/
def StickerVal.truthy : StickerVal → Bool
  | .num n => n != 0
  | .str s => s != ""

/-- JS `String(...)` applied to a sticker value. -/
def StickerVal.toStr : StickerVal → String
  | .num n => toString n
  | .str s => s

/-- A mention record `{tag, id, fromIndex}`. `tag = none` models a missing or
non-string tag (the code checks `typeof tag !== 'string'`); `id = none`
models a missing id. -/
structure Mention where
  tag : Option String
  id : Option String
  fromIndex : Option Nat
  deriving Repr, DecidableEq

/-- A structured message object (`msg` when it is an object): body text,
attachments, mentions, URL and sticker are all optional. -/
structure MessageObj where
  body : Option String
  mentions : Option (List Mention)
  attachments : Option (List Attachment)
  url : Option String
  sticker : Option StickerVal
  deriving Repr, DecidableEq

/-- The `msg` argument of `createCommentPost`, classified by `typeof`:
a string, an object, `null` (for which `typeof` is also `'object'`), or a
value of any other type (number, undefined, function, ...), which fails the
type validation. -/
inductive MsgInput where
  | str (s : String)
  | obj (m : MessageObj)
  | nullV
  | invalid
  deriving Repr, DecidableEq

/-- The `postID` argument, classified by `typeof`: a string, or a value of
any other type. -/
inductive PostIdArg where
  | str (s : String)
  | nonstr
  deriving Repr, DecidableEq

/-- The `replyCommentID` argument: absent, a comment id, or a function
(in which case the code treats it as the callback). -/
inductive ReplyArg where
  | absent
  | id (s : String)
  | fn
  deriving Repr, DecidableEq

/-- An attachment descriptor in the form's attachment list: either
`{media:{id}}` or `{link:{external:{url}}}`. -/
inductive AttachDesc where
  | media (id : String)
  | link (url : String)
  deriving Repr, DecidableEq

/-- A mention range `{entity:{id}, length, offset}`. -/
structure MentionRange where
  entityId : String
  length : Nat
  offset : Nat
  deriving Repr, DecidableEq

/-- The `message` block of the form: `{ranges, text}`. -/
structure MessageBlock where
  ranges : List MentionRange
  text : String
  deriving Repr, DecidableEq

/-- The `input` object of the mutation form. -/
structure FormInput where
  client_mutation_id : String
  actor_id : String
  attachments : List AttachDesc
  feedback_id : String
  message : MessageBlock
  reply_comment_parent_fbid : Option String
  is_tracking_encrypted : Bool
  feedback_source : String
  idempotence_token : String
  session_id : String
  deriving Repr, DecidableEq

/-- The mutation form serialized as the `variables` payload of the GraphQL
request. (`tracking` is always the empty array and is omitted from the
record.) -/
structure MutationForm where
  feedLocation : String
  feedbackSource : Nat
  groupID : Option String
  input : FormInput
  scale : Nat
  useDefaultActor : Bool
  deriving Repr, DecidableEq

/-- `node.feedback` of the created comment node. -/
structure NodeFeedback where
  url : String
  deriving Repr, DecidableEq

/-- The created comment node (`feedback_comment_edge.node`). -/
structure CommentNode where
  id : String
  feedback : Option NodeFeedback
  deriving Repr, DecidableEq

/-- `feedback_comment_edge` of the mutation response. -/
structure FeedbackEdge where
  node : Option CommentNode
  deriving Repr, DecidableEq

/-- `comment_create.feedback` of the mutation response. -/
structure CCFeedback where
  total_comment_count : Nat
  deriving Repr, DecidableEq

/-- `data.comment_create` of the mutation response. -/
structure CommentCreate where
  feedback_comment_edge : Option FeedbackEdge
  feedback : Option CCFeedback
  deriving Repr, DecidableEq

/-- `data` of the mutation response. -/
structure MutationData where
  comment_create : Option CommentCreate
  deriving Repr, DecidableEq

/-- A mutation response after `parseAndCheckLogin`. `errors` is the top-level
error collection; it is JS-truthy exactly when present (a JS array, even
empty, is truthy). -/
structure MutationResp where
  errors : Option (List String)
  data : Option MutationData
  deriving Repr, DecidableEq

/-- The normalized result `{id, url, count}`. -/
structure CommentResult where
  id : String
  url : String
  count : Nat
  deriving Repr, DecidableEq

/-- Error values that can reach the completion path. `errorCollection` is
never produced by the embedded code: it expresses the error shape the
specification predicts for the top-level-errors case (the bare collection),
for comparison with what the code actually delivers (the whole response). -/
inductive JsErr where
  | validation (msg : String)
  | streamError
  | transport (e : String)
  | uploadResp (r : UploadResp)
  | mutationResp (r : MutationResp)
  | typeError (msg : String)
  | errorCollection (es : List String)
  deriving Repr, DecidableEq

/-- A network request issued by a call: an attachment upload
(`postFormData` to the upload endpoint, carrying the actor's profile id and
the attachment), or the mutation submission (`post` to the GraphQL endpoint,
carrying the serialized form). -/
inductive NetRequest where
  | upload (profileId : String) (a : Attachment)
  | submit (form : MutationForm)
  deriving Repr, DecidableEq

/-- Per-call collaborator behaviour: `ctx.userID`, the value of
`Math.round(Math.random() * 19)`, the two `utils.getGUID()` results (in
evaluation order: idempotence token first, then session id), and the settled
outcome of the mutation request. -/
structure Env where
  userID : String
  randVal : Nat
  guid1 : String
  guid2 : String
  mutationResponse : Except String MutationResp
  deriving Repr, DecidableEq

/-- Observable summary of one `createCommentPost` call. `threw` is a
synchronous exception escaping the call itself. `returnsPromise` records
whether the call returns the promise object to the caller (the final
`return returnPromise`): on a validation failure the function instead
returns the callback's return value (`return callback({error})`, i.e.
`undefined`), and when it throws, nothing is returned. `promise` is the
settled state of the internal promise (`none` = it never settles); the
caller can observe it only when `returnsPromise` is true. -/
structure CallTrace where
  threw : Option String
  requests : List NetRequest
  callbackCalls : List (Except JsErr CommentResult)
  syncCallbackCalls : Nat
  returnsPromise : Bool
  promise : Option (Except JsErr CommentResult)
  deriving Repr, DecidableEq

/-- The mutation form carried by a request, if it is a mutation submission. -/
def submitOf : NetRequest → Option MutationForm
  | .submit f => some f
  | .upload _ _ => none

/-- The mutation forms among the requests of a trace (the serialized bodies
sent to the mutation endpoint). -/
def CallTrace.submits (t : CallTrace) : List MutationForm :=
  t.requests.filterMap submitOf

/-! ## Base64 and UTF-8 (`Buffer.from(s).toString('base64')`) -/

/-- UTF-8 encoding of a single code point, as a list of byte values. -/
def encodeUtf8Char (c : Char) : List Nat :=
  let n := c.toNat
  if n < 0x80 then [n]
  else if n < 0x800 then [0xC0 + n / 64, 0x80 + n % 64]
  else if n < 0x10000 then [0xE0 + n / 4096, 0x80 + (n / 64) % 64, 0x80 + n % 64]
  else [0xF0 + n / 262144, 0x80 + (n / 4096) % 64, 0x80 + (n / 64) % 64, 0x80 + n % 64]

/-- UTF-8 byte sequence of a string. -/
def utf8Bytes (s : String) : List Nat :=
  (s.toList.map encodeUtf8Char).flatten

/-- The standard base64 alphabet. -/
def base64Table : List Char :=
  "ABCDEFGHIJKLMNOPQRSTUVWXYZabcdefghijklmnopqrstuvwxyz0123456789+/".toList

/-- The base64 digit for a 6-bit value. -/
def b64Char (n : Nat) : Char :=
  base64Table.getD n 'A'

/-- Standard base64 encoding (with `=` padding) of a byte sequence. -/
def base64Encode : List Nat → List Char
  | b1 :: b2 :: b3 :: rest =>
      b64Char (b1 / 4) :: b64Char ((b1 % 4) * 16 + b2 / 16) ::
        b64Char ((b2 % 16) * 4 + b3 / 64) :: b64Char (b3 % 64) :: base64Encode rest
  | [b1, b2] =>
      [b64Char (b1 / 4), b64Char ((b1 % 4) * 16 + b2 / 16), b64Char ((b2 % 16) * 4), '=']
  | [b1] =>
      [b64Char (b1 / 4), b64Char ((b1 % 4) * 16), '=', '=']
  | [] => []

/-- `Buffer.from(s).toString('base64')`. -/
def base64OfString (s : String) : String :=
  String.mk (base64Encode (utf8Bytes s))

/-! ## Attachment uploads (`handleUpload`) -/

/-- Outcome of one attachment upload promise: the response check
`if (res.error || !res.payload || !res.payload.fbid) throw res;` followed by
`return { media: { id: res.payload.fbid } }`. -/
def uploadResult (a : Attachment) : Except JsErr AttachDesc :=
  match a.response with
  | .error e => .error (.transport e)
  | .ok res =>
      if res.error then .error (.uploadResp res)
      else
        match res.payload with
        | none => .error (.uploadResp res)
        | some p =>
            match p.fbid with
            | none => .error (.uploadResp res)
            | some fb => if fb = "" then .error (.uploadResp res) else .ok (.media fb)

/-- A fully successful attachment: it passes the readable-stream check and
its upload response is well-formed (no error flag, a payload with a truthy
`fbid`). -/
def uploadOk (a : Attachment) : Bool :=
  a.readable &&
    match a.response with
    | .error _ => false
    | .ok r =>
        !r.error &&
          match r.payload with
          | none => false
          | some p => jsTruthyStr p.fbid

/-- The media id of a successfully uploaded attachment (empty string as a
placeholder when the response is not well-formed). -/
def fbidText (a : Attachment) : String :=
  match a.response with
  | .error _ => ""
  | .ok r =>
      match r.payload with
      | none => ""
      | some p => p.fbid.getD ""

/-- `Promise.all`: succeeds with all values in order, or fails with the first
rejection. -/
def collectAll : List (Except JsErr AttachDesc) → Except JsErr (List AttachDesc)
  | [] => .ok []
  | x :: xs =>
      match x with
      | .error e => .error e
      | .ok d =>
          match collectAll xs with
          | .error e => .error e
          | .ok ds => .ok (d :: ds)

/-- Aggregate result of `handleUpload` on an attachment list: the `map`
callback throws `Error('Attachments must be a readable stream.')` at the
first non-readable attachment; otherwise all uploads run and
`Promise.all` joins them. (The descriptors are pushed onto the form's
attachment list by the caller, `runPipeline`.) -/
def handleUpload (atts : List Attachment) : Except JsErr (List AttachDesc) :=
  if atts.isEmpty then .ok []
  else if atts.all (·.readable) then collectAll (atts.map uploadResult)
  else .error .streamError

/-- The upload requests actually issued by `handleUpload`: during the
synchronous `attachments.map`, `postFormData` has already been called for
every attachment preceding the first one that fails the readable-stream
check. -/
def uploadRequests (profileId : String) (atts : List Attachment) : List NetRequest :=
  (atts.takeWhile (·.readable)).map (NetRequest.upload profileId)

/-! ## URL, mentions and sticker mergers -/

/-- `handleURL`: append a `{link:{external:{url}}}` descriptor when
`typeof msg.url === 'string'`. -/
def handleURL (url : Option String) (atts : List AttachDesc) : List AttachDesc :=
  match url with
  | some u => atts ++ [.link u]
  | none => atts

/-- The descriptors `handleURL` appends. -/
def urlPart (url : Option String) : List AttachDesc :=
  match url with
  | some u => [.link u]
  | none => []

/-- JS `String.prototype.indexOf` core search: the first position `j`
(starting at `j`, spending `fuel` candidate positions) at which `t` occurs
in `b`. -/
def findFrom (b t : List Char) (j : Nat) : Nat → Option Nat
  | 0 => none
  | fuel + 1 =>
      if t.isPrefixOf (b.drop j) then some j else findFrom b t (j + 1) fuel

/-- JS `body.indexOf(tag, i)`; `none` models the return value `-1`. The
start index is clamped to the string length, as in JS. -/
def jsIndexOf (body tag : String) (i : Nat) : Option Nat :=
  let b := body.toList
  let t := tag.toList
  let start := min i b.length
  findFrom b t start (b.length + 1 - start)

/-- The range one mention contributes (or `none` when the mention is skipped
with a warning): the code skips when `typeof tag !== 'string' || !id`, and
when `msg.body.indexOf(tag, fromIndex || 0)` is negative. -/
def mentionRangeOf (body : String) (m : Mention) : Option MentionRange :=
  match m.tag with
  | none => none
  | some tag =>
      if jsTruthyStr m.id then
        (jsIndexOf body tag (m.fromIndex.getD 0)).map fun off =>
          { entityId := m.id.getD "", length := tag.length, offset := off }
      else none

/-- One iteration of the `handleMentions` loop: `.ok none` is a skipped
mention (warning logged), `.ok (some r)` a range to append, and `.error` the
`TypeError` raised by `msg.body.indexOf` when the body is absent
(`undefined`) and the mention passed the tag/id checks. -/
def mentionStep (body : Option String) (m : Mention) :
    Except JsErr (Option MentionRange) :=
  match m.tag with
  | none => .ok none
  | some tag =>
      if jsTruthyStr m.id then
        match body with
        | none => .error (.typeError "Cannot read properties of undefined")
        | some b =>
            match jsIndexOf b tag (m.fromIndex.getD 0) with
            | none => .ok none
            | some off =>
                .ok (some { entityId := m.id.getD "", length := tag.length,
                            offset := off })
      else .ok none

/-- `handleMentions`: fold over the mentions in input order, appending a
range per resolvable mention to the accumulated range list. -/
def handleMentions (body : Option String) (ms : List Mention)
    (acc : List MentionRange) : Except JsErr (List MentionRange) :=
  match ms with
  | [] => .ok acc
  | m :: rest =>
      match mentionStep body m with
      | .error e => .error e
      | .ok none => handleMentions body rest acc
      | .ok (some r) => handleMentions body rest (acc ++ [r])

/-- `handleSticker`: append `{media:{id: String(msg.sticker)}}` when
`msg.sticker` is truthy. -/
def handleSticker (sticker : Option StickerVal) (atts : List AttachDesc) :
    List AttachDesc :=
  match sticker with
  | some sv => if sv.truthy then atts ++ [.media sv.toStr] else atts
  | none => atts

/-- The descriptors `handleSticker` appends. -/
def stickerPart (sticker : Option StickerVal) : List AttachDesc :=
  match sticker with
  | some sv => if sv.truthy then [.media sv.toStr] else []
  | none => []

/-! ## Form assembly, submission and the orchestrating entry point -/

/-- The form skeleton built by `createCommentPost` before the handler stages
run (empty attachment and range lists). -/
def buildForm (env : Env) (postID : String) (replyId : Option String)
    (bodyText : String) : MutationForm :=
  { feedLocation := "NEWSFEED"
    feedbackSource := 1
    groupID := none
    input :=
      { client_mutation_id := toString env.randVal
        actor_id := env.userID
        attachments := []
        feedback_id := base64OfString ("feedback:" ++ postID)
        message := { ranges := [], text := bodyText }
        reply_comment_parent_fbid := replyId
        is_tracking_encrypted := true
        feedback_source := "NEWS_FEED"
        idempotence_token := "client:" ++ env.guid1
        session_id := env.guid2 }
    scale := 1
    useDefaultActor := false }

/-- `createContent`: the GraphQL request carrying the serialized form, and
its outcome. `if (res.errors) throw res;` throws the whole response;
otherwise the result is extracted from the nested response structure, a
missing intermediate object raising a `TypeError` (which rejects the
pipeline). -/
def createContent (env : Env) (form : MutationForm) :
    NetRequest × Except JsErr CommentResult :=
  (.submit form,
    match env.mutationResponse with
    | .error e => .error (.transport e)
    | .ok res =>
        if res.errors.isSome then .error (.mutationResp res)
        else
          match res.data with
          | none => .error (.typeError "Cannot read comment_create of undefined")
          | some d =>
              match d.comment_create with
              | none => .error (.typeError "Cannot read feedback_comment_edge of undefined")
              | some cc =>
                  match cc.feedback_comment_edge with
                  | none => .error (.typeError "Cannot read node of undefined")
                  | some edge =>
                      match edge.node with
                      | none => .error (.typeError "Cannot read id of undefined")
                      | some node =>
                          match node.feedback with
                          | none => .error (.typeError "Cannot read url of undefined")
                          | some nf =>
                              match cc.feedback with
                              | none => .error (.typeError "Cannot read total_comment_count of undefined")
                              | some cf =>
                                  .ok { id := node.id, url := nf.url,
                                        count := cf.total_comment_count })

/-- The fully merged form as submitted: the skeleton with the final
attachment list and mention-range list written in. -/
def finalForm (env : Env) (postID : String) (replyId : Option String)
    (bodyText : String) (atts : List AttachDesc) (rngs : List MentionRange) :
    MutationForm :=
  let f := buildForm env postID replyId bodyText
  { f with input :=
      { f.input with attachments := atts,
                     message := { f.input.message with ranges := rngs } } }

/-- Trace of a validation failure: the callback is invoked synchronously,
exactly once, with `{error}`, and the function does
`return callback({error})` — it returns the callback's return value
(`undefined`), never the promise, so `returnsPromise` is false. With no
caller-supplied callback the default callback still rejects the internal
promise, but that promise is never handed to the caller. -/
def validationTrace (userCb : Bool) (msg : String) : CallTrace :=
  { threw := none
    requests := []
    callbackCalls := [.error (.validation msg)]
    syncCallbackCalls := 1
    returnsPromise := false
    promise := if userCb then none else some (.error (.validation msg)) }

/-- Trace of an asynchronous pipeline failure (`.catch` invokes the callback
once with the error; the promise was already returned to the caller). -/
def asyncFailTrace (userCb : Bool) (reqs : List NetRequest) (e : JsErr) :
    CallTrace :=
  { threw := none
    requests := reqs
    callbackCalls := [.error e]
    syncCallbackCalls := 0
    returnsPromise := true
    promise := if userCb then none else some (.error e) }

/-- Normalization of a validated `msg`: a string is wrapped as `{body: msg}`,
and `mentions`/`attachments` are defaulted to empty lists. Assigning the
defaults on `null` (which passes the `typeof` validation) throws a
`TypeError` out of the call. The `invalid` case is unreachable: the type
validation has already rejected it. -/
def normalizeMsg : MsgInput → Except String MessageObj
  | .str s =>
      .ok { body := some s, mentions := some [], attachments := some [],
            url := none, sticker := none }
  | .obj m =>
      .ok { m with mentions := some (m.mentions.getD []),
                   attachments := some (m.attachments.getD []) }
  | .nullV => .error "TypeError: Cannot set properties of null"
  | .invalid => .error "TypeError: unreachable"

/-- Whether `typeof msg` is `'string'` or `'object'` (note `typeof null` is
`'object'`). -/
def msgTypeOk : MsgInput → Bool
  | .invalid => false
  | _ => true

/-- Whether the call observes a caller-supplied callback: either the fourth
argument, or a function passed in the `replyCommentID` position. -/
def userCbOf (reply : ReplyArg) (hasCb : Bool) : Bool :=
  hasCb || (match reply with | .fn => true | _ => false)

/-- The reply-parent id after the argument shift (`replyCommentID || null`). -/
def replyIdOf (reply : ReplyArg) : Option String :=
  match reply with
  | .id s => some s
  | _ => none

/-- The asynchronous pipeline on a normalized message: build the form
skeleton, run `handleUpload`, then (on success) the URL / mentions / sticker
mergers, then `createContent`, invoking the callback exactly once from
`.then`/`.catch`. -/
def runPipeline (env : Env) (mo : MessageObj) (postID : String)
    (replyId : Option String) (userCb : Bool) : CallTrace :=
  let f0 := buildForm env postID replyId (mo.body.getD "")
  let atts := mo.attachments.getD []
  let upReqs := uploadRequests env.userID atts
  match handleUpload atts with
  | .error e => asyncFailTrace userCb upReqs e
  | .ok descs =>
      let a1 := f0.input.attachments ++ descs
      let a2 := handleURL mo.url a1
      match handleMentions mo.body (mo.mentions.getD []) f0.input.message.ranges with
      | .error e => asyncFailTrace userCb upReqs e
      | .ok rngs =>
          let a3 := handleSticker mo.sticker a2
          let form2 := finalForm env postID replyId (mo.body.getD "") a3 rngs
          let sub := createContent env form2
          { threw := none
            requests := upReqs ++ [sub.1]
            callbackCalls := [sub.2]
            syncCallbackCalls := 0
            returnsPromise := true
            promise := if userCb then none else some sub.2 }

/-- The merged attachment-descriptor and mention-range lists of the pipeline
on a normalized message, when both the upload stage and the mentions stage
succeed. -/
def mergedParts (mo : MessageObj) : Option (List AttachDesc × List MentionRange) :=
  match handleUpload (mo.attachments.getD []) with
  | .error _ => none
  | .ok descs =>
      match handleMentions mo.body (mo.mentions.getD []) [] with
      | .error _ => none
      | .ok rngs => some (handleSticker mo.sticker (handleURL mo.url ([] ++ descs)), rngs)

/-- The entry point `createCommentPost(msg, postID, replyCommentID,
callback)`: argument shifting, the two synchronous validations, message
normalization, then the asynchronous pipeline. -/
def createCommentPost (env : Env) (msg : MsgInput) (postID : PostIdArg)
    (reply : ReplyArg) (hasCb : Bool) : CallTrace :=
  let userCb := userCbOf reply hasCb
  if msgTypeOk msg then
    match postID with
    | .nonstr => validationTrace userCb "postID must be a string."
    | .str pid =>
        match normalizeMsg msg with
        | .error e =>
            { threw := some e, requests := [], callbackCalls := [],
              syncCallbackCalls := 0, returnsPromise := false,
              promise := none }
        | .ok mo => runPipeline env mo pid (replyIdOf reply) userCb
  else validationTrace userCb "Message must be a string or an object."

/-- A form with the two per-call tokens (`idempotence_token`, `session_id`)
blanked out: two forms are "structurally identical except for the
idempotency and session tokens" exactly when their images under this map are
equal. -/
def eraseTokens (f : MutationForm) : MutationForm :=
  { f with input := { f.input with idempotence_token := "", session_id := "" } }

/-- A form with the two per-call tokens and the (random) client mutation id
blanked out. -/
def eraseTokensAndCmid (f : MutationForm) : MutationForm :=
  { f with input :=
      { f.input with idempotence_token := "", session_id := "",
                     client_mutation_id := "" } }

/-- `tag` occurs in `body` at position `j` (in code points). -/
def occursAt (body tag : String) (j : Nat) : Prop :=
  tag.toList.isPrefixOf (body.toList.drop j) = true

instance (body tag : String) (j : Nat) : Decidable (occursAt body tag j) :=
  inferInstanceAs (Decidable (_ = true))

/-! ## Concrete collaborator behaviours used by witnesses and
counterexamples -/

/-- A well-formed successful mutation response. -/
def respOK : MutationResp :=
  { errors := none
    data := some (MutationData.mk (some (CommentCreate.mk
      (some (FeedbackEdge.mk (some (CommentNode.mk "cid"
        (some (NodeFeedback.mk "curl"))))))
      (some (CCFeedback.mk 7))))) }

/-- The normalized result extracted from `respOK`. -/
def resultOK : CommentResult := { id := "cid", url := "curl", count := 7 }

/-- A benign environment: every collaborator succeeds. -/
def envOK : Env :=
  { userID := "u1", randVal := 3, guid1 := "g1", guid2 := "g2",
    mutationResponse := .ok respOK }

/-- An attachment that passes the readable-stream check and uploads
successfully. -/
def attOK : Attachment :=
  { readable := true,
    response := .ok { error := false, payload := some { fbid := some "f1" } } }

/-- An attachment that fails the readable-stream check. -/
def attNoStream : Attachment :=
  { readable := false,
    response := .ok { error := false, payload := none } }

/-- A mutation response carrying a non-empty top-level error collection. -/
def respErr : MutationResp := { errors := some ["boom"], data := none }

/-- An environment whose mutation response carries a top-level error
collection. -/
def envErr : Env :=
  { userID := "u1", randVal := 0, guid1 := "g1", guid2 := "g2",
    mutationResponse := .ok respErr }

/-- First of two otherwise-identical calls: same user, same response, fresh
random value and fresh GUIDs. -/
def envA : Env :=
  { userID := "u1", randVal := 0, guid1 := "ga1", guid2 := "ga2",
    mutationResponse := .ok respOK }

/-- Second of two otherwise-identical calls: same user, same response, a
different random value and different fresh GUIDs. -/
def envB : Env :=
  { userID := "u1", randVal := 7, guid1 := "gb1", guid2 := "gb2",
    mutationResponse := .ok respOK }

/-- A second successful attachment, with a distinct media id. -/
def attOK2 : Attachment :=
  { readable := true,
    response := .ok { error := false, payload := some { fbid := some "f2" } } }

/-- A concrete message with two successful attachments, a URL and a
sticker. -/
def moC5 : MessageObj :=
  { body := some "hello", mentions := some [],
    attachments := some [attOK, attOK2], url := some "http://x",
    sticker := some (.num 5) }

/-! ## Helper lemmas -/

theorem handleURL_eq (url : Option String) (atts : List AttachDesc) :
    handleURL url atts = atts ++ urlPart url := by
  cases url <;> simp [handleURL, urlPart]

theorem handleSticker_eq (sticker : Option StickerVal) (atts : List AttachDesc) :
    handleSticker sticker atts = atts ++ stickerPart sticker := by
  cases sticker with
  | none => simp [handleSticker, stickerPart]
  | some sv => by_cases h : sv.truthy <;> simp [handleSticker, stickerPart, h]

theorem uploadOk_readable {a : Attachment} (h : uploadOk a = true) :
    a.readable = true := by
  unfold uploadOk at h
  exact (Bool.and_eq_true_iff.mp h).1

theorem uploadResult_of_ok {a : Attachment} (h : uploadOk a = true) :
    uploadResult a = .ok (.media (fbidText a)) := by
  obtain ⟨rd, resp⟩ := a
  cases resp with
  | error e => simp [uploadOk] at h
  | ok r =>
      obtain ⟨err, pay⟩ := r
      cases pay with
      | none => simp [uploadOk] at h
      | some p =>
          obtain ⟨fb⟩ := p
          cases fb with
          | none => simp [uploadOk, jsTruthyStr] at h
          | some s =>
              simp only [uploadOk, jsTruthyStr, Bool.and_eq_true, bne_iff_ne,
                ne_eq] at h
              obtain ⟨-, herr, hs⟩ := h
              have herr2 : err = false := by simpa using herr
              subst herr2
              simp [uploadResult, fbidText, hs]

theorem collectAll_map_ok (atts : List Attachment)
    (h : ∀ a ∈ atts, uploadResult a = .ok (.media (fbidText a))) :
    collectAll (atts.map uploadResult) =
      .ok (atts.map fun a => AttachDesc.media (fbidText a)) := by
  induction atts with
  | nil => rfl
  | cons a rest ih =>
      simp only [List.map_cons, collectAll]
      rw [h a (by simp), ih (fun x hx => h x (by simp [hx]))]

theorem handleUpload_of_all_ok (atts : List Attachment)
    (h : atts.all uploadOk = true) :
    handleUpload atts = .ok (atts.map fun a => AttachDesc.media (fbidText a)) := by
  unfold handleUpload
  cases atts with
  | nil => rfl
  | cons a rest =>
      have hall : ∀ x ∈ a :: rest, uploadOk x = true := List.all_eq_true.mp h
      have hread : (a :: rest).all (·.readable) = true :=
        List.all_eq_true.mpr fun x hx => uploadOk_readable (hall x hx)
      simp only [List.isEmpty_cons, hread, if_true, if_false, Bool.false_eq_true]
      exact collectAll_map_ok _ fun x hx => uploadResult_of_ok (hall x hx)

theorem mentionStep_some_body (b : String) (m : Mention) :
    mentionStep (some b) m = .ok (mentionRangeOf b m) := by
  cases htag : m.tag with
  | none => simp [mentionStep, mentionRangeOf, htag]
  | some tag =>
      by_cases hid : jsTruthyStr m.id = true
      · cases hoff : jsIndexOf b tag (m.fromIndex.getD 0) <;>
          simp [mentionStep, mentionRangeOf, htag, hid, hoff]
      · simp [mentionStep, mentionRangeOf, htag, hid]

theorem handleMentions_some_body (b : String) (ms : List Mention) :
    ∀ acc, handleMentions (some b) ms acc =
      .ok (acc ++ ms.filterMap (mentionRangeOf b)) := by
  induction ms with
  | nil => intro acc; simp [handleMentions]
  | cons m rest ih =>
      intro acc
      unfold handleMentions
      rw [mentionStep_some_body, List.filterMap_cons]
      cases mentionRangeOf b m with
      | none => simp [ih]
      | some r => simp [ih]

theorem handleMentions_appendOnly (body : Option String) (ms : List Mention) :
    ∀ acc res, handleMentions body ms acc = .ok res → acc <+: res := by
  induction ms with
  | nil =>
      intro acc res h
      simp only [handleMentions, Except.ok.injEq] at h
      exact h ▸ List.prefix_refl acc
  | cons m rest ih =>
      intro acc res h
      unfold handleMentions at h
      cases hstep : mentionStep body m with
      | error e => rw [hstep] at h; simp at h
      | ok o =>
          rw [hstep] at h
          cases o with
          | none => exact ih acc res h
          | some r => exact (List.prefix_append acc [r]).trans (ih _ res h)

theorem findFrom_some_spec (b t : List Char) :
    ∀ fuel j off, findFrom b t j fuel = some off →
      t.isPrefixOf (List.drop off b) = true ∧ j ≤ off ∧ off < j + fuel ∧
        ∀ k, j ≤ k → k < off → t.isPrefixOf (List.drop k b) = false := by
  intro fuel
  induction fuel with
  | zero => intro j off h; simp [findFrom] at h
  | succ n ih =>
      intro j off h
      unfold findFrom at h
      by_cases hp : t.isPrefixOf (List.drop j b) = true
      · rw [if_pos hp] at h
        obtain rfl : j = off := by simpa using h
        exact ⟨hp, le_refl j, by omega, fun k hk1 hk2 => absurd hk1 (by omega)⟩
      · rw [if_neg hp] at h
        obtain ⟨h1, h2, h3, h4⟩ := ih (j + 1) off h
        refine ⟨h1, by omega, by omega, fun k hk1 hk2 => ?_⟩
        rcases Nat.eq_or_lt_of_le hk1 with rfl | hlt
        · exact Bool.not_eq_true _ ▸ (by simpa using hp)
        · exact h4 k (by omega) hk2

theorem findFrom_complete (b t : List Char) :
    ∀ fuel j k, j ≤ k → k < j + fuel → t.isPrefixOf (List.drop k b) = true →
      ∃ off, findFrom b t j fuel = some off ∧ off ≤ k := by
  intro fuel
  induction fuel with
  | zero => intro j k h1 h2 _; omega
  | succ n ih =>
      intro j k h1 h2 hp
      unfold findFrom
      by_cases hj : t.isPrefixOf (List.drop j b) = true
      · exact ⟨j, by rw [if_pos hj], h1⟩
      · have hjk : j ≠ k := fun he => hj (he ▸ hp)
        obtain ⟨off, ho1, ho2⟩ := ih (j + 1) k (by omega) (by omega) hp
        exact ⟨off, by rw [if_neg hj]; exact ho1, ho2⟩

theorem string_toList_ne_nil {s : String} (h : s ≠ "") : s.toList ≠ [] := by
  intro he
  apply h
  cases s with
  | mk l =>
      cases l with
      | nil => rfl
      | cons c cs => simp [String.toList] at he

theorem jsIndexOf_found {body tag : String} {i j : Nat} (ht : tag ≠ "")
    (hocc : occursAt body tag j) (hij : i ≤ j) :
    ∃ off, jsIndexOf body tag i = some off ∧ occursAt body tag off ∧
      i ≤ off ∧ ∀ k, i ≤ k → k < off → ¬ occursAt body tag k := by
  have htl : tag.toList ≠ [] := string_toList_ne_nil ht
  have hjlen : j < body.toList.length := by
    have hpre : tag.toList <+: body.toList.drop j :=
      List.isPrefixOf_iff_prefix.mp hocc
    have hlen : tag.toList.length ≤ (body.toList.drop j).length :=
      hpre.length_le
    rw [List.length_drop] at hlen
    have : 0 < tag.toList.length := List.length_pos.mpr htl
    omega
  have hstart : min i body.toList.length = i := by omega
  obtain ⟨off, ho1, ho2⟩ :=
    findFrom_complete body.toList tag.toList
      (body.toList.length + 1 - i) i j hij (by omega) hocc
  obtain ⟨hf1, hf2, hf3, hf4⟩ :=
    findFrom_some_spec body.toList tag.toList _ i off ho1
  refine ⟨off, ?_, hf1, hf2, fun k hk1 hk2 => ?_⟩
  · simp only [jsIndexOf]
    rw [hstart]
    exact ho1
  · intro hk
    have := hf4 k hk1 hk2
    rw [hk] at this
    simp at this

theorem jsIndexOf_not_found {body tag : String} {i k : Nat} (ht : tag ≠ "")
    (h : jsIndexOf body tag i = none) (hik : i ≤ k) :
    ¬ occursAt body tag k := by
  intro hocc
  obtain ⟨off, ho1, -⟩ := jsIndexOf_found ht hocc hik
  rw [h] at ho1
  exact Option.noConfusion ho1

theorem filterMap_submitOf_map_upload (p : String) (l : List Attachment) :
    (l.map (NetRequest.upload p)).filterMap submitOf = [] := by
  induction l with
  | nil => rfl
  | cons a rest ih => simp [List.filterMap_cons, submitOf, ih]

theorem submits_uploadRequests (p : String) (atts : List Attachment) :
    (uploadRequests p atts).filterMap submitOf = [] :=
  filterMap_submitOf_map_upload p _

theorem runPipeline_submits (env : Env) (mo : MessageObj) (p : String)
    (rid : Option String) (u : Bool) :
    (runPipeline env mo p rid u).submits =
      match mergedParts mo with
      | some pr => [finalForm env p rid (mo.body.getD "") pr.1 pr.2]
      | none => [] := by
  simp only [runPipeline, mergedParts, buildForm]
  cases h1 : handleUpload (mo.attachments.getD []) with
  | error e => simp [CallTrace.submits, asyncFailTrace, submits_uploadRequests]
  | ok descs =>
      cases h2 : handleMentions mo.body (mo.mentions.getD []) [] with
      | error e => simp [CallTrace.submits, asyncFailTrace, submits_uploadRequests]
      | ok rngs =>
          simp [CallTrace.submits, createContent, List.filterMap_append,
            submits_uploadRequests, submitOf]

theorem runPipeline_threw (env : Env) (mo : MessageObj) (p : String)
    (rid : Option String) (u : Bool) :
    (runPipeline env mo p rid u).threw = none := by
  simp only [runPipeline, buildForm]
  cases handleUpload (mo.attachments.getD []) with
  | error e => rfl
  | ok descs =>
      cases handleMentions mo.body (mo.mentions.getD []) [] with
      | error e => rfl
      | ok rngs => rfl

theorem runPipeline_returnsPromise (env : Env) (mo : MessageObj) (p : String)
    (rid : Option String) (u : Bool) :
    (runPipeline env mo p rid u).returnsPromise = true := by
  simp only [runPipeline, buildForm]
  cases handleUpload (mo.attachments.getD []) with
  | error e => rfl
  | ok descs =>
      cases handleMentions mo.body (mo.mentions.getD []) [] with
      | error e => rfl
      | ok rngs => rfl

theorem runPipeline_callbackCalls (env : Env) (mo : MessageObj) (p : String)
    (rid : Option String) (u : Bool) :
    ∃ x, (runPipeline env mo p rid u).callbackCalls = [x] ∧
      ((runPipeline env mo p rid u).promise = if u then none else some x) ∧
      (runPipeline env mo p rid u).syncCallbackCalls = 0 := by
  simp only [runPipeline, buildForm]
  cases handleUpload (mo.attachments.getD []) with
  | error e => exact ⟨.error e, rfl, rfl, rfl⟩
  | ok descs =>
      cases handleMentions mo.body (mo.mentions.getD []) [] with
      | error e => exact ⟨.error e, rfl, rfl, rfl⟩
      | ok rngs => exact ⟨_, rfl, rfl, rfl⟩

theorem createCommentPost_submits_inv (env : Env) (msg : MsgInput)
    (pid : PostIdArg) (reply : ReplyArg) (hasCb : Bool) (f : MutationForm)
    (h : (createCommentPost env msg pid reply hasCb).submits = [f]) :
    ∃ p mo pr, pid = .str p ∧ normalizeMsg msg = .ok mo ∧
      mergedParts mo = some pr ∧
      f = finalForm env p (replyIdOf reply) (mo.body.getD "") pr.1 pr.2 := by
  cases msg with
  | invalid =>
      simp [createCommentPost, msgTypeOk, validationTrace, CallTrace.submits] at h
  | nullV =>
      cases pid with
      | nonstr =>
          simp [createCommentPost, msgTypeOk, validationTrace,
            CallTrace.submits] at h
      | str p =>
          simp [createCommentPost, msgTypeOk, normalizeMsg,
            CallTrace.submits] at h
  | str s =>
      cases pid with
      | nonstr =>
          simp [createCommentPost, msgTypeOk, validationTrace,
            CallTrace.submits] at h
      | str p =>
          simp only [createCommentPost, msgTypeOk, normalizeMsg, if_true,
            runPipeline_submits] at h
          cases hm : mergedParts (MessageObj.mk (some s) (some []) (some [])
              none none) with
          | none => rw [hm] at h; simp at h
          | some pr =>
              rw [hm] at h
              simp only [List.cons.injEq, and_true] at h
              exact ⟨p, _, pr, rfl, rfl, hm, h.symm⟩
  | obj mo =>
      cases pid with
      | nonstr =>
          simp [createCommentPost, msgTypeOk, validationTrace,
            CallTrace.submits] at h
      | str p =>
          simp only [createCommentPost, msgTypeOk, normalizeMsg, if_true,
            runPipeline_submits] at h
          cases hm : mergedParts (MessageObj.mk mo.body
              (some (mo.mentions.getD [])) (some (mo.attachments.getD []))
              mo.url mo.sticker) with
          | none => rw [hm] at h; simp at h
          | some pr =>
              rw [hm] at h
              simp only [List.cons.injEq, and_true] at h
              exact ⟨p, _, pr, rfl, rfl, hm, h.symm⟩

theorem createCommentPost_eq_runPipeline (env : Env) (msg : MsgInput)
    (p : String) (reply : ReplyArg) (hasCb : Bool) (mo : MessageObj)
    (hn : normalizeMsg msg = .ok mo) :
    createCommentPost env msg (.str p) reply hasCb
      = runPipeline env mo p (replyIdOf reply) (userCbOf reply hasCb) := by
  cases msg with
  | invalid => simp [normalizeMsg] at hn
  | nullV => simp [normalizeMsg] at hn
  | str s =>
      obtain rfl : MessageObj.mk (some s) (some []) (some []) none none = mo := by
        simpa [normalizeMsg] using hn
      rfl
  | obj m =>
      obtain rfl : MessageObj.mk m.body (some (m.mentions.getD []))
          (some (m.attachments.getD [])) m.url m.sticker = mo := by
        simpa [normalizeMsg] using hn
      rfl

theorem runPipeline_callback_of_merged (env : Env) (mo : MessageObj)
    (p : String) (rid : Option String) (u : Bool)
    (pr : List AttachDesc × List MentionRange) (hm : mergedParts mo = some pr) :
    (runPipeline env mo p rid u).callbackCalls
      = [(createContent env
          (finalForm env p rid (mo.body.getD "") pr.1 pr.2)).2] := by
  unfold mergedParts at hm
  simp only [runPipeline, buildForm]
  cases h1 : handleUpload (mo.attachments.getD []) with
  | error e => rw [h1] at hm; simp at hm
  | ok descs =>
      rw [h1] at hm
      cases h2 : handleMentions mo.body (mo.mentions.getD []) [] with
      | error e => rw [h2] at hm; simp at hm
      | ok rngs =>
          rw [h2] at hm
          simp only [Option.some.injEq] at hm
          rw [← hm]

theorem string_append_left_cancel {a b c : String} (h : a ++ b = a ++ c) :
    b = c := by
  have h2 := congrArg String.data h
  rw [String.data_append, String.data_append] at h2
  exact String.ext (List.append_cancel_left h2)

theorem jsIndexOf_eq_none_of_no_occ {body tag : String} {i : Nat}
    (ht : tag ≠ "") (h : ∀ j, i ≤ j → ¬ occursAt body tag j) :
    jsIndexOf body tag i = none := by
  cases hoff : jsIndexOf body tag i with
  | none => rfl
  | some off =>
      exfalso
      have hoff2 : findFrom body.toList tag.toList (min i body.toList.length)
          (body.toList.length + 1 - min i body.toList.length) = some off := by
        simpa [jsIndexOf] using hoff
      obtain ⟨hf1, hf2, -, -⟩ := findFrom_some_spec _ _ _ _ _ hoff2
      have hocc : occursAt body tag off := hf1
      have htl : tag.toList ≠ [] := string_toList_ne_nil ht
      have hlen : off < body.toList.length := by
        have hpre : tag.toList <+: body.toList.drop off :=
          List.isPrefixOf_iff_prefix.mp hf1
        have hle := hpre.length_le
        rw [List.length_drop] at hle
        have hpos := List.length_pos.mpr htl
        omega
      rcases le_or_lt i body.toList.length with hc | hc
      · rw [Nat.min_eq_left hc] at hf2
        exact h off hf2 hocc
      · rw [Nat.min_eq_right (Nat.le_of_lt hc)] at hf2
        omega

/-! ## Claims -/

/-- C7: for every `postID` that is not of string type, with any message
input, the call fails with a `ValidationError` via the completion path, the
completion path is invoked synchronously (the sole callback invocation is
synchronous), and no network request (no upload and no mutation submission)
is issued. -/
theorem postid_validation_spec (env : Env) (msg : MsgInput) (reply : ReplyArg)
    (hasCb : Bool) :
    (createCommentPost env msg .nonstr reply hasCb).requests = [] ∧
    (createCommentPost env msg .nonstr reply hasCb).syncCallbackCalls = 1 ∧
    ∃ m, (createCommentPost env msg .nonstr reply hasCb).callbackCalls
        = [.error (.validation m)] := by
  cases msg <;> exact ⟨rfl, rfl, _, rfl⟩

/-- C8: for every string `s` and string `postId`,
`createComment(s, postId)` behaves identically to
`createComment({body: s}, postId)`: the whole observable trace (requests,
callback invocations, promise state) is equal, for any reply argument and
callback configuration. -/
theorem string_message_equiv (env : Env) (pid : PostIdArg) (reply : ReplyArg)
    (hasCb : Bool) (s : String) :
    createCommentPost env (.str s) pid reply hasCb
      = createCommentPost env
          (.obj { body := some s, mentions := none, attachments := none,
                  url := none, sticker := none }) pid reply hasCb := by
  cases pid <;> rfl

/-- C10: calling `createComment` with `msg = null` (which passes the
`typeof`-object validation) throws a synchronous `TypeError` during
normalization, so no callback invocation, no promise settlement and no
request ever happens; and a falsy non-null sticker identifier (`0` or the
empty string) appends no sticker descriptor. -/
theorem null_message_and_falsy_sticker (env : Env) (p : String)
    (reply : ReplyArg) (hasCb : Bool) (atts : List AttachDesc) :
    (createCommentPost env .nullV (.str p) reply hasCb).threw
        = some "TypeError: Cannot set properties of null" ∧
    (createCommentPost env .nullV (.str p) reply hasCb).callbackCalls = [] ∧
    (createCommentPost env .nullV (.str p) reply hasCb).promise = none ∧
    (createCommentPost env .nullV (.str p) reply hasCb).requests = [] ∧
    handleSticker (some (.num 0)) atts = atts ∧
    handleSticker (some (.str "")) atts = atts :=
  ⟨rfl, rfl, rfl, rfl, rfl, rfl⟩

/-- C9: for every string `postId`, the `feedback_id` field of the assembled
form (as actually submitted to the mutation endpoint) equals the base64
encoding of the string `"feedback:"` concatenated with `postId`. -/
theorem feedback_id_encoding (env : Env) (msg : MsgInput) (pid : String)
    (reply : ReplyArg) (hasCb : Bool) (f : MutationForm)
    (h : (createCommentPost env msg (.str pid) reply hasCb).submits = [f]) :
    f.input.feedback_id = base64OfString ("feedback:" ++ pid) := by
  obtain ⟨p, mo, pr, hp, -, -, hf⟩ :=
    createCommentPost_submits_inv _ _ _ _ _ _ h
  injection hp with hpp
  subst hpp
  subst hf
  rfl

/-- C9 witness: a concrete call submits exactly one body whose
`feedback_id` is the base64 of `"feedback:123"` (namely
`"ZmVlZGJhY2s6MTIz"`). -/
theorem feedback_id_encoding_witness :
    (createCommentPost envOK (.str "hi") (.str "123") .absent false).submits
        = [finalForm envOK "123" none "hi" [] []] ∧
    (finalForm envOK "123" none "hi" [] []).input.feedback_id
      = base64OfString ("feedback:" ++ "123") ∧
    base64OfString ("feedback:" ++ "123") = "ZmVlZGJhY2s6MTIz" :=
  ⟨rfl, feedback_id_encoding envOK (.str "hi") "123" .absent false _ rfl,
    by decide⟩

/-- C1 counterexample: with a caller-supplied callback and every
collaborator succeeding, the call returns the awaitable and the completion
callback is invoked exactly once with the success result, yet the returned
awaitable never settles — it does not resolve in lockstep with the
callback, refuting the claim. -/
theorem dual_completion_cex :
    (createCommentPost envOK (.str "hi") (.str "p") .absent true).callbackCalls
        = [.ok resultOK] ∧
    (createCommentPost envOK (.str "hi") (.str "p") .absent true).returnsPromise
        = true ∧
    (createCommentPost envOK (.str "hi") (.str "p") .absent true).promise
        = none :=
  ⟨rfl, rfl, rfl⟩

/-- C1 (amended): for every call that does not throw synchronously, the
completion callback is invoked exactly once with either an error or the
result. The awaitable is returned to the caller only when both validations
pass; when it is returned and no caller-supplied callback is given, it
settles in lockstep with the callback invocation with the identical outcome
and value, and when a caller-supplied callback is given it never settles.
When the awaitable is not returned, the call was a validation failure: the
callback was invoked synchronously with a validation error and the call
returned undefined instead of the awaitable. -/
theorem dual_completion_amended (env : Env) (msg : MsgInput)
    (pid : PostIdArg) (reply : ReplyArg) (hasCb : Bool)
    (h : (createCommentPost env msg pid reply hasCb).threw = none) :
    (createCommentPost env msg pid reply hasCb).callbackCalls.length = 1 ∧
    ((createCommentPost env msg pid reply hasCb).returnsPromise = true →
      (userCbOf reply hasCb = true →
        (createCommentPost env msg pid reply hasCb).promise = none) ∧
      (userCbOf reply hasCb = false →
        (createCommentPost env msg pid reply hasCb).promise
          = (createCommentPost env msg pid reply hasCb).callbackCalls.head?)) ∧
    ((createCommentPost env msg pid reply hasCb).returnsPromise = false →
      (createCommentPost env msg pid reply hasCb).syncCallbackCalls = 1 ∧
      ∃ m, (createCommentPost env msg pid reply hasCb).callbackCalls
          = [.error (.validation m)]) := by
  cases hu : userCbOf reply hasCb with
  | true =>
      cases msg with
      | invalid =>
          simp [createCommentPost, msgTypeOk, validationTrace, hu]
      | nullV =>
          cases pid with
          | nonstr => simp [createCommentPost, msgTypeOk, validationTrace, hu]
          | str p => simp [createCommentPost, msgTypeOk, normalizeMsg] at h
      | str s =>
          cases pid with
          | nonstr => simp [createCommentPost, msgTypeOk, validationTrace, hu]
          | str p =>
              rw [createCommentPost_eq_runPipeline env (.str s) p reply hasCb
                (MessageObj.mk (some s) (some []) (some []) none none) rfl] at *
              rw [hu] at h ⊢
              obtain ⟨x, h1, h2, h3⟩ := runPipeline_callbackCalls env
                (MessageObj.mk (some s) (some []) (some []) none none) p
                (replyIdOf reply) true
              have hrp := runPipeline_returnsPromise env
                (MessageObj.mk (some s) (some []) (some []) none none) p
                (replyIdOf reply) true
              simp [h1, h2, hrp]
      | obj m =>
          cases pid with
          | nonstr => simp [createCommentPost, msgTypeOk, validationTrace, hu]
          | str p =>
              rw [createCommentPost_eq_runPipeline env (.obj m) p reply hasCb
                (MessageObj.mk m.body (some (m.mentions.getD []))
                  (some (m.attachments.getD [])) m.url m.sticker) rfl] at *
              rw [hu] at h ⊢
              obtain ⟨x, h1, h2, h3⟩ := runPipeline_callbackCalls env
                (MessageObj.mk m.body (some (m.mentions.getD []))
                  (some (m.attachments.getD [])) m.url m.sticker) p
                (replyIdOf reply) true
              have hrp := runPipeline_returnsPromise env
                (MessageObj.mk m.body (some (m.mentions.getD []))
                  (some (m.attachments.getD [])) m.url m.sticker) p
                (replyIdOf reply) true
              simp [h1, h2, hrp]
  | false =>
      cases msg with
      | invalid =>
          simp [createCommentPost, msgTypeOk, validationTrace, hu]
      | nullV =>
          cases pid with
          | nonstr => simp [createCommentPost, msgTypeOk, validationTrace, hu]
          | str p => simp [createCommentPost, msgTypeOk, normalizeMsg] at h
      | str s =>
          cases pid with
          | nonstr => simp [createCommentPost, msgTypeOk, validationTrace, hu]
          | str p =>
              rw [createCommentPost_eq_runPipeline env (.str s) p reply hasCb
                (MessageObj.mk (some s) (some []) (some []) none none) rfl] at *
              rw [hu] at h ⊢
              obtain ⟨x, h1, h2, h3⟩ := runPipeline_callbackCalls env
                (MessageObj.mk (some s) (some []) (some []) none none) p
                (replyIdOf reply) false
              have hrp := runPipeline_returnsPromise env
                (MessageObj.mk (some s) (some []) (some []) none none) p
                (replyIdOf reply) false
              simp [h1, h2, hrp]
      | obj m =>
          cases pid with
          | nonstr => simp [createCommentPost, msgTypeOk, validationTrace, hu]
          | str p =>
              rw [createCommentPost_eq_runPipeline env (.obj m) p reply hasCb
                (MessageObj.mk m.body (some (m.mentions.getD []))
                  (some (m.attachments.getD [])) m.url m.sticker) rfl] at *
              rw [hu] at h ⊢
              obtain ⟨x, h1, h2, h3⟩ := runPipeline_callbackCalls env
                (MessageObj.mk m.body (some (m.mentions.getD []))
                  (some (m.attachments.getD [])) m.url m.sticker) p
                (replyIdOf reply) false
              have hrp := runPipeline_returnsPromise env
                (MessageObj.mk m.body (some (m.mentions.getD []))
                  (some (m.attachments.getD [])) m.url m.sticker) p
                (replyIdOf reply) false
              simp [h1, h2, hrp]

/-- C1 (amended) witness: a concrete non-throwing call without a
caller-supplied callback returns the awaitable, invokes the callback once
and settles the promise with the same outcome. -/
theorem dual_completion_amended_witness :
    (createCommentPost envOK (.str "hi") (.str "p") .absent false).threw
        = none ∧
    ((createCommentPost envOK (.str "hi") (.str "p") .absent false).callbackCalls.length = 1 ∧
      ((createCommentPost envOK (.str "hi") (.str "p") .absent false).returnsPromise = true →
        (userCbOf .absent false = true →
          (createCommentPost envOK (.str "hi") (.str "p") .absent false).promise = none) ∧
        (userCbOf .absent false = false →
          (createCommentPost envOK (.str "hi") (.str "p") .absent false).promise
            = (createCommentPost envOK (.str "hi") (.str "p") .absent false).callbackCalls.head?)) ∧
      ((createCommentPost envOK (.str "hi") (.str "p") .absent false).returnsPromise = false →
        (createCommentPost envOK (.str "hi") (.str "p") .absent false).syncCallbackCalls = 1 ∧
        ∃ m, (createCommentPost envOK (.str "hi") (.str "p") .absent false).callbackCalls
            = [.error (.validation m)])) :=
  ⟨rfl, dual_completion_amended envOK (.str "hi") (.str "p") .absent false rfl⟩

/-- C2 counterexample: with two attachments of which the second fails the
readable-stream check, one upload request (for the first attachment) has
already been issued before the operation fails — not zero, refuting the
claim. -/
theorem upload_failfast_cex :
    (createCommentPost envOK
        (.obj { body := some "x", mentions := none,
                attachments := some [attOK, attNoStream], url := none,
                sticker := none }) (.str "p") .absent false).requests
      = [.upload "u1" attOK] ∧
    (createCommentPost envOK
        (.obj { body := some "x", mentions := none,
                attachments := some [attOK, attNoStream], url := none,
                sticker := none }) (.str "p") .absent false).callbackCalls
      = [.error .streamError] :=
  ⟨rfl, rfl⟩

/-- C2 (amended): when some attachment fails the readable-stream check, the
upload requests actually issued are exactly those for the readable
attachments preceding the first failing one (so none for the failing
attachment or anything after it), no mutation submission is made, and the
whole operation fails with the stream error. -/
theorem upload_failfast_amended (env : Env) (mo : MessageObj) (p : String)
    (reply : ReplyArg) (hasCb : Bool)
    (h : (mo.attachments.getD []).all (·.readable) = false) :
    (createCommentPost env (.obj mo) (.str p) reply hasCb).requests
        = ((mo.attachments.getD []).takeWhile (·.readable)).map
            (NetRequest.upload env.userID) ∧
    (createCommentPost env (.obj mo) (.str p) reply hasCb).callbackCalls
        = [.error .streamError] ∧
    (createCommentPost env (.obj mo) (.str p) reply hasCb).submits = [] := by
  have hup : handleUpload (mo.attachments.getD []) = .error .streamError := by
    unfold handleUpload
    cases hatts : mo.attachments.getD [] with
    | nil => rw [hatts] at h; simp at h
    | cons a t =>
        rw [hatts] at h
        simp [h]
  rw [createCommentPost_eq_runPipeline env (.obj mo) p reply hasCb
    (MessageObj.mk mo.body (some (mo.mentions.getD []))
      (some (mo.attachments.getD [])) mo.url mo.sticker) rfl]
  simp only [runPipeline, buildForm, Option.getD_some]
  rw [hup]
  exact ⟨rfl, rfl, submits_uploadRequests _ _⟩

/-- C2 (amended) witness: the concrete `[attOK, attNoStream]` list has a
failing readable-stream check, and the conclusions hold for it. -/
theorem upload_failfast_amended_witness :
    (({ body := some "x", mentions := none,
        attachments := some [attOK, attNoStream], url := none,
        sticker := none : MessageObj }).attachments.getD []).all (·.readable)
      = false ∧
    ((createCommentPost envOK
        (.obj { body := some "x", mentions := none,
                attachments := some [attOK, attNoStream], url := none,
                sticker := none }) (.str "p") .absent false).requests
        = ((({ body := some "x", mentions := none,
               attachments := some [attOK, attNoStream], url := none,
               sticker := none : MessageObj }).attachments.getD
                []).takeWhile (·.readable)).map
            (NetRequest.upload envOK.userID) ∧
      (createCommentPost envOK
        (.obj { body := some "x", mentions := none,
                attachments := some [attOK, attNoStream], url := none,
                sticker := none }) (.str "p") .absent false).callbackCalls
        = [.error .streamError] ∧
      (createCommentPost envOK
        (.obj { body := some "x", mentions := none,
                attachments := some [attOK, attNoStream], url := none,
                sticker := none }) (.str "p") .absent false).submits = []) :=
  ⟨rfl, upload_failfast_amended envOK
    { body := some "x", mentions := none,
      attachments := some [attOK, attNoStream], url := none, sticker := none }
    "p" .absent false rfl⟩

/-- C3 counterexample: for a response whose top-level error collection is
`["boom"]`, the error value delivered to the completion path is the whole
response object, which is not the error collection itself. -/
theorem mutation_errors_value_cex :
    (createCommentPost envErr (.str "x") (.str "p") .absent false).callbackCalls
        = [.error (.mutationResp respErr)] ∧
    JsErr.mutationResp respErr ≠ JsErr.errorCollection ["boom"] :=
  ⟨rfl, fun hc => JsErr.noConfusion hc⟩

/-- C3 (amended): for every mutation response carrying a non-empty top-level
error collection, the call fails and the error value delivered to the
completion path is the whole response object as-is (which carries that
collection), with the completion callback invoked exactly once. -/
theorem mutation_errors_value_amended (env : Env) (msg : MsgInput)
    (pid : String) (reply : ReplyArg) (hasCb : Bool) (f : MutationForm)
    (r : MutationResp) (es : List String)
    (hr : env.mutationResponse = .ok r) (hes : r.errors = some es)
    (hne : es ≠ [])
    (hsub : (createCommentPost env msg (.str pid) reply hasCb).submits = [f]) :
    (createCommentPost env msg (.str pid) reply hasCb).callbackCalls
        = [.error (.mutationResp r)] := by
  obtain ⟨p, mo, pr, hp, hn, hm, -⟩ :=
    createCommentPost_submits_inv _ _ _ _ _ _ hsub
  injection hp with hpp
  subst hpp
  rw [createCommentPost_eq_runPipeline env msg pid reply hasCb mo hn,
    runPipeline_callback_of_merged env mo pid (replyIdOf reply)
      (userCbOf reply hasCb) pr hm]
  simp [createContent, hr, hes]

/-- C3 (amended) witness: the concrete erroring response is delivered
wrapped in the whole response object. -/
theorem mutation_errors_value_amended_witness :
    envErr.mutationResponse = .ok respErr ∧ respErr.errors = some ["boom"] ∧
    (createCommentPost envErr (.str "x") (.str "p") .absent false).submits
        = [finalForm envErr "p" none "x" [] []] ∧
    (createCommentPost envErr (.str "x") (.str "p") .absent false).callbackCalls
        = [.error (.mutationResp respErr)] :=
  ⟨rfl, rfl, rfl,
    mutation_errors_value_amended envErr (.str "x") "p" .absent false _
      respErr ["boom"] rfl rfl (by simp) rfl⟩

/-- C4 counterexample: two calls with identical arguments, the same user and
the same mutation response, whose unique-token generator yields fresh GUIDs
per call, produce request bodies that still differ after blanking the
idempotency and session tokens — the `client_mutation_id` field, drawn from
`Math.random()`, also differs, refuting "identical except for the
idempotency token and the session token". -/
theorem request_body_idempotence_cex :
    (createCommentPost envA (.str "hi") (.str "p") .absent false).submits.map
        eraseTokens
      ≠ (createCommentPost envB (.str "hi") (.str "p") .absent false).submits.map
        eraseTokens ∧
    envA.guid1 ≠ envB.guid1 ∧ envA.guid2 ≠ envB.guid2 ∧
    envA.userID = envB.userID ∧
    envA.mutationResponse = envB.mutationResponse := by
  refine ⟨by decide, by decide, by decide, rfl, rfl⟩

/-- C4 (amended): two calls with identical arguments and identically
behaving collaborators submit request bodies that are structurally identical
except for the idempotency token, the session token and the client mutation
id; the idempotency and session tokens differ whenever the unique-token
generator yields distinct values across the calls, and if the random client
mutation id happens to coincide the bodies are identical except for the two
tokens alone. -/
theorem request_body_idempotence_amended (e1 e2 : Env) (msg : MsgInput)
    (pid : PostIdArg) (reply : ReplyArg) (cb1 cb2 : Bool)
    (f1 f2 : MutationForm)
    (huid : e1.userID = e2.userID)
    (h1 : (createCommentPost e1 msg pid reply cb1).submits = [f1])
    (h2 : (createCommentPost e2 msg pid reply cb2).submits = [f2]) :
    eraseTokensAndCmid f1 = eraseTokensAndCmid f2 ∧
    (e1.guid1 ≠ e2.guid1 →
      f1.input.idempotence_token ≠ f2.input.idempotence_token) ∧
    (e1.guid2 ≠ e2.guid2 → f1.input.session_id ≠ f2.input.session_id) ∧
    (e1.randVal = e2.randVal → eraseTokens f1 = eraseTokens f2) := by
  obtain ⟨p, mo, pr, hp, hn, hm, hf1⟩ :=
    createCommentPost_submits_inv _ _ _ _ _ _ h1
  obtain ⟨p', mo', pr', hp', hn', hm', hf2⟩ :=
    createCommentPost_submits_inv _ _ _ _ _ _ h2
  rw [hp] at hp'
  injection hp' with hpp
  subst hpp
  rw [hn] at hn'
  injection hn' with hmo
  subst hmo
  rw [hm] at hm'
  injection hm' with hpr
  subst hpr
  subst hf1
  subst hf2
  refine ⟨?_, ?_, ?_, ?_⟩
  · simp [finalForm, buildForm, eraseTokensAndCmid, huid]
  · intro hg hcon
    apply hg
    have hcon2 : "client:" ++ e1.guid1 = "client:" ++ e2.guid1 := by
      simpa [finalForm, buildForm] using hcon
    exact string_append_left_cancel hcon2
  · intro hg hcon
    apply hg
    simpa [finalForm, buildForm] using hcon
  · intro hrand
    simp [finalForm, buildForm, eraseTokens, huid, hrand]

/-- C4 (amended) witness: the amended statement applied to the two concrete
calls of the counterexample. -/
theorem request_body_idempotence_amended_witness :
    envA.userID = envB.userID ∧
    (createCommentPost envA (.str "hi") (.str "p") .absent false).submits
        = [finalForm envA "p" none "hi" [] []] ∧
    (createCommentPost envB (.str "hi") (.str "p") .absent false).submits
        = [finalForm envB "p" none "hi" [] []] ∧
    (eraseTokensAndCmid (finalForm envA "p" none "hi" [] [])
        = eraseTokensAndCmid (finalForm envB "p" none "hi" [] []) ∧
      (envA.guid1 ≠ envB.guid1 →
        (finalForm envA "p" none "hi" [] []).input.idempotence_token
          ≠ (finalForm envB "p" none "hi" [] []).input.idempotence_token) ∧
      (envA.guid2 ≠ envB.guid2 →
        (finalForm envA "p" none "hi" [] []).input.session_id
          ≠ (finalForm envB "p" none "hi" [] []).input.session_id) ∧
      (envA.randVal = envB.randVal →
        eraseTokens (finalForm envA "p" none "hi" [] [])
          = eraseTokens (finalForm envB "p" none "hi" [] []))) :=
  ⟨rfl, rfl, rfl,
    request_body_idempotence_amended envA envB (.str "hi") (.str "p") .absent
      false false (finalForm envA "p" none "hi" [] [])
      (finalForm envB "p" none "hi" [] []) rfl rfl rfl⟩

/-- C5: for every input whose attachments all upload successfully, the
submitted form's attachment list is exactly one media descriptor per
attachment in the original order, followed by the URL descriptor if a URL
string is present, followed by the sticker descriptor if a (truthy) sticker
is present; the submitted range list is exactly what the mentions merger
produced; and all three mergers are append-only (the previous list is a
prefix of the new one). -/
theorem attachment_assembly_order (env : Env) (mo : MessageObj) (p : String)
    (reply : ReplyArg) (hasCb : Bool) (rngs : List MentionRange)
    (hup : (mo.attachments.getD []).all uploadOk = true)
    (hmen : handleMentions mo.body (mo.mentions.getD []) [] = .ok rngs) :
    ((createCommentPost env (.obj mo) (.str p) reply hasCb).submits.map
        (fun f => f.input.attachments)
      = [(mo.attachments.getD []).map (fun a => AttachDesc.media (fbidText a))
          ++ urlPart mo.url ++ stickerPart mo.sticker]) ∧
    ((createCommentPost env (.obj mo) (.str p) reply hasCb).submits.map
        (fun f => f.input.message.ranges) = [rngs]) ∧
    (∀ u l, l <+: handleURL u l) ∧
    (∀ sv l, l <+: handleSticker sv l) ∧
    (∀ b ms acc res, handleMentions b ms acc = .ok res → acc <+: res) := by
  have hm : mergedParts (MessageObj.mk mo.body (some (mo.mentions.getD []))
      (some (mo.attachments.getD [])) mo.url mo.sticker)
      = some ((mo.attachments.getD []).map
            (fun a => AttachDesc.media (fbidText a))
          ++ urlPart mo.url ++ stickerPart mo.sticker, rngs) := by
    unfold mergedParts
    simp only [Option.getD_some]
    rw [handleUpload_of_all_ok _ hup, hmen]
    simp [handleURL_eq, handleSticker_eq, List.append_assoc]
  rw [createCommentPost_eq_runPipeline env (.obj mo) p reply hasCb
    (MessageObj.mk mo.body (some (mo.mentions.getD []))
      (some (mo.attachments.getD [])) mo.url mo.sticker) rfl,
    runPipeline_submits, hm]
  refine ⟨?_, ?_, ?_, ?_, ?_⟩
  · simp [finalForm, buildForm]
  · simp [finalForm, buildForm]
  · intro u l
    rw [handleURL_eq]
    exact List.prefix_append _ _
  · intro sv l
    rw [handleSticker_eq]
    exact List.prefix_append _ _
  · exact fun b ms acc res h => handleMentions_appendOnly b ms acc res h

/-- C5 witness: two successfully uploading attachments plus a URL and a
sticker yield exactly `[media f1, media f2, link, media sticker]` in that
order. -/
theorem attachment_assembly_order_witness :
    ((moC5.attachments.getD []).all uploadOk = true) ∧
    handleMentions moC5.body (moC5.mentions.getD []) [] = .ok [] ∧
    ((createCommentPost envOK (.obj moC5) (.str "p") .absent false).submits.map
        (fun f => f.input.attachments)
      = [[AttachDesc.media "f1", AttachDesc.media "f2",
          AttachDesc.link "http://x", AttachDesc.media "5"]]) := by
  refine ⟨rfl, rfl, ?_⟩
  have h := attachment_assembly_order envOK moC5 "p" .absent false [] rfl rfl
  exact h.1

/-- C6: for every mention processed in input order, a mention whose tag is a
non-empty string, whose id is present (truthy), and whose tag occurs in the
body at or after `fromIndex` (default 0) contributes the range
`{entity:{id}, length: tag length, offset: first occurrence position at or
after fromIndex}`; a mention with a missing/non-string tag or missing id, or
whose tag is not found at or after `fromIndex`, contributes no range and
does not fail the pipeline (the fold still returns `.ok` with the ranges
appended in input order); in particular body `"hello world"` with mention
`{tag:"world", id:"42"}` yields `{entity:{id:"42"}, length:5, offset:6}`. -/
theorem mentions_merger_spec :
    (∀ b ms acc, handleMentions (some b) ms acc
        = .ok (acc ++ ms.filterMap (mentionRangeOf b))) ∧
    (∀ b m tag j, m.tag = some tag → tag ≠ "" → jsTruthyStr m.id = true →
      occursAt b tag j → m.fromIndex.getD 0 ≤ j →
      ∃ off, mentionRangeOf b m
          = some { entityId := m.id.getD "", length := tag.length,
                   offset := off } ∧
        occursAt b tag off ∧ m.fromIndex.getD 0 ≤ off ∧
        ∀ k, m.fromIndex.getD 0 ≤ k → k < off → ¬ occursAt b tag k) ∧
    (∀ b m, m.tag = none ∨ jsTruthyStr m.id = false →
      mentionRangeOf b m = none) ∧
    (∀ b m tag, m.tag = some tag → tag ≠ "" →
      (∀ j, m.fromIndex.getD 0 ≤ j → ¬ occursAt b tag j) →
      mentionRangeOf b m = none) ∧
    mentionRangeOf "hello world"
        { tag := some "world", id := some "42", fromIndex := none }
      = some { entityId := "42", length := 5, offset := 6 } := by
  refine ⟨fun b ms acc => handleMentions_some_body b ms acc, ?_, ?_, ?_, ?_⟩
  · intro b m tag j htag hne hid hocc hij
    obtain ⟨off, ho1, ho2, ho3, ho4⟩ := jsIndexOf_found hne hocc hij
    refine ⟨off, ?_, ho2, ho3, ho4⟩
    simp [mentionRangeOf, htag, hid, ho1]
  · intro b m h
    rcases h with h | h
    · simp [mentionRangeOf, h]
    · cases htag : m.tag with
      | none => simp [mentionRangeOf, htag]
      | some tag => simp [mentionRangeOf, htag, h]
  · intro b m tag htag hne hno
    have hnone : jsIndexOf b tag (m.fromIndex.getD 0) = none :=
      jsIndexOf_eq_none_of_no_occ hne hno
    cases hid : jsTruthyStr m.id with
    | false => simp [mentionRangeOf, htag, hid]
    | true => simp [mentionRangeOf, htag, hid, hnone]
  · decide

/-- C6 witness: the strengthened first-occurrence property applied to the
concrete `"hello world"` / `{tag:"world", id:"42"}` example, with
`fromIndex` defaulting to 0 and the occurrence at offset 6. -/
theorem mentions_merger_spec_witness :
    ∃ off, mentionRangeOf "hello world"
        { tag := some "world", id := some "42", fromIndex := none }
      = some { entityId := "42", length := 5, offset := off } ∧
      occursAt "hello world" "world" off ∧ 0 ≤ off ∧
      ∀ k, 0 ≤ k → k < off → ¬ occursAt "hello world" "world" k :=
  mentions_merger_spec.2.1 "hello world"
    { tag := some "world", id := some "42", fromIndex := none } "world" 6
    rfl (by decide) rfl (by decide) (by decide)

end Mari
